import Mathlib

/-!
Verification development for the MMR (Merkle Mountain Range) RPC module
(`frame/merkle-mountain-range/rpc/src/lib.rs`).

The module exposes a single remote method `mmr_generateProof` that resolves an
optional block-hash reference, queries the runtime's MMR accumulator for a
leaf and its inclusion proof, SCALE-encodes both, and packages them — or maps
every failure into a closed error taxonomy.

Bytes are modelled as `List Nat` with well-formedness `b < 256` where it
matters; machine integers (`u64` leaf indices and counts) are `Nat` with
explicit bounds.  Fallible operations return `Except`/`Option`.
-/

/-! ## Byte-level encodings (SCALE codec as used by the source) -/

/-- Minimal little-endian byte representation of a natural number
(empty for zero).  Used by the big-integer mode of compact encoding. -/
def natLEBytes (n : Nat) : List Nat :=
  if h : n = 0 then []
  else (n % 256) :: natLEBytes (n / 256)
termination_by n
decreasing_by
  exact Nat.div_lt_self (Nat.pos_of_ne_zero h) (by omega)

/-- Little-endian fixed 8-byte (u64) SCALE encoding.  The source's
`LeafIndex`/`NodeIndex` are `u64`, encoded in 8 little-endian bytes. -/
def u64le (n : Nat) : List Nat :=
  [n % 256, n / 2 ^ 8 % 256, n / 2 ^ 16 % 256, n / 2 ^ 24 % 256,
   n / 2 ^ 32 % 256, n / 2 ^ 40 % 256, n / 2 ^ 48 % 256, n / 2 ^ 56 % 256]

/-- Little-endian decoding of a byte list, inverse of `u64le` below `2 ^ 64`. -/
def u64dec (l : List Nat) : Nat :=
  l.foldr (fun b acc => b + 256 * acc) 0

/-- SCALE compact encoding of a length/natural: single-byte, two-byte,
four-byte and big-integer modes, as in the `parity-scale-codec` crate the
source uses for `Vec` length prefixes. -/
def compactEnc (n : Nat) : List Nat :=
  if n < 2 ^ 6 then [n * 4]
  else if n < 2 ^ 14 then [(n * 4 + 1) % 256, (n * 4 + 1) / 256]
  else if n < 2 ^ 30 then
    [(n * 4 + 2) % 256, (n * 4 + 2) / 2 ^ 8 % 256,
     (n * 4 + 2) / 2 ^ 16 % 256, (n * 4 + 2) / 2 ^ 24 % 256]
  else
    let bytes := natLEBytes n
    ((bytes.length - 4) * 4 + 3) :: bytes

/-- SCALE encoding of a `Vec<u8>`: compact length prefix then the raw bytes. -/
def encodeVecU8 (l : List Nat) : List Nat :=
  compactEnc l.length ++ l

/-! ## Data model: `Proof`, `Bytes`, `LeafProof` -/

/-- The accumulator's proof structure (`pallet_mmr_primitives::Proof`):
leaf index, total leaf count at the snapshot, and the ordered sibling-path
hashes.  `MmrHash` is generic, as in the source. -/
structure Proof (MmrHash : Type) where
  leaf_index : Nat
  leaf_count : Nat
  items : List MmrHash
deriving DecidableEq

/-- SCALE encoding of `Proof` (derived `Encode` in the source): fields in
declaration order `(leaf_index, leaf_count, items)`, with `items` encoded as
a compact length prefix followed by each hash's encoding in order. -/
def proofEncode {MmrHash : Type} (encHash : MmrHash → List Nat)
    (p : Proof MmrHash) : List Nat :=
  u64le p.leaf_index ++ u64le p.leaf_count ++
    compactEnc p.items.length ++ (p.items.map encHash).flatten

/-- Newtype over raw bytes (`sp_core::Bytes`), serialized as 0x-prefixed hex. -/
structure Bytes where
  bytes : List Nat
deriving DecidableEq

/-- Retrieved MMR leaf and its proof (the RPC response payload). -/
structure LeafProof (BlockHash : Type) where
  block_hash : BlockHash
  leaf : Bytes
  proof : Bytes
deriving DecidableEq

/-- Create new `LeafProof` from given concrete `leaf` and `proof`
(`LeafProof::new` in the source).  The `Encode` bounds of the source become
explicit encoder functions `encLeaf`/`encHash`. -/
def LeafProof.new {BlockHash Leaf MmrHash : Type}
    (encLeaf : Leaf → List Nat) (encHash : MmrHash → List Nat)
    (block_hash : BlockHash) (leaf : Leaf) (proof : Proof MmrHash) :
    LeafProof BlockHash :=
  { block_hash := block_hash
    leaf := ⟨encLeaf leaf⟩
    proof := ⟨proofEncode encHash proof⟩ }

/-! ## Error taxonomy -/

/-- Base error code for runtime dispatch failures (`RUNTIME_ERROR`). -/
def RUNTIME_ERROR : Int := 8000

/-- Base error code for accumulator (MMR) failures (`MMR_ERROR`). -/
def MMR_ERROR : Int := 8010

/-- Code for a missing leaf (`LEAF_NOT_FOUND_ERROR = MMR_ERROR + 1`). -/
def LEAF_NOT_FOUND_ERROR : Int := MMR_ERROR + 1

/-- Code for a proof-generation failure
(`GENERATE_PROOF_ERROR = MMR_ERROR + 2`). -/
def GENERATE_PROOF_ERROR : Int := MMR_ERROR + 2

/-- Modelled from the spec: `pallet_mmr_primitives::Error` is declared outside
this repository slice; the spec (§6) gives the accumulator error set as
`\x7bLeafNotFound, GenerateProofFailure, Other(detail)\x7d`.  The source match
names the second variant `GenerateProof`; all remaining variants fall to the
catch-all arm, modelled by `Other` carrying its own debug representation. -/
inductive MmrError where
  | LeafNotFound : MmrError
  | GenerateProof : MmrError
  | Other : String → MmrError
deriving DecidableEq

/-- Debug formatting of an accumulator error (Rust `format!` with the derived
`Debug` instance: the bare variant name; `Other` carries its representation). -/
def MmrError.debugFmt : MmrError → String
  | .LeafNotFound => "LeafNotFound"
  | .GenerateProof => "GenerateProof"
  | .Other d => d

/-- The JSON-RPC error object (`jsonrpsee ErrorObject::owned`): numeric code,
short message, optional detail payload. -/
structure ErrorObject where
  code : Int
  message : String
  data : Option String
deriving DecidableEq

/-- The call error produced by the mapping functions (`CallError::Custom`). -/
inductive CallError where
  | Custom : ErrorObject → CallError
deriving DecidableEq

/-- Numeric code carried by a `CallError`. -/
def CallError.code : CallError → Int
  | .Custom o => o.code

/-- Message carried by a `CallError`. -/
def CallError.message : CallError → String
  | .Custom o => o.message

/-- Detail payload carried by a `CallError`. -/
def CallError.data : CallError → Option String
  | .Custom o => o.data

/-- Converts a mmr-specific error into a `CallError`
(`mmr_error_into_rpc_error` in the source): the debug representation is
computed first, then the error is matched on its variant. -/
def mmr_error_into_rpc_error (err : MmrError) : CallError :=
  let data := err.debugFmt
  match err with
  | .LeafNotFound =>
      .Custom ⟨LEAF_NOT_FOUND_ERROR, "Leaf was not found", some data⟩
  | .GenerateProof =>
      .Custom ⟨GENERATE_PROOF_ERROR, "Error while generating the proof", some data⟩
  | _ => .Custom ⟨MMR_ERROR, "Unexpected MMR error", some data⟩

/-- Converts a runtime trap into a `CallError`
(`runtime_error_into_rpc_error` in the source).  The source takes any
`impl Debug`; the model takes the debug-formatted string directly. -/
def runtime_error_into_rpc_error (err : String) : CallError :=
  .Custom ⟨RUNTIME_ERROR, "Runtime trapped", some err⟩

/-! ## The request handler -/

/-- The collaborator as seen by the handler: `self.client` provides the best
block hash (`client.info().best_hash`) and, through `runtime_api()`, the
proof-generation query `generate_proof_with_context`.  The query returns a
nested result: the outer layer is a dispatch (`ApiError`) failure modelled by
its debug string, the inner an accumulator `MmrError`. -/
structure Client (Hash Leaf MmrHash : Type) where
  best_hash : Hash
  query : Hash → Nat → Except String (Except MmrError (Leaf × Proof MmrHash))

/-- The body of `generate_proof`, instrumented with a query trace: the second
component lists every `(block_hash, leaf_index)` query the handler issues to
the collaborator.  The source is straight-line: resolve the block hash
(`at.unwrap_or_else(|| best_hash)`), issue the single query, map the outer
error with `runtime_error_into_rpc_error`, the inner with
`mmr_error_into_rpc_error`, and on success build `LeafProof::new`. -/
def generate_proof_traced {Hash Leaf MmrHash : Type}
    (encLeaf : Leaf → List Nat) (encHash : MmrHash → List Nat)
    (c : Client Hash Leaf MmrHash) (leaf_index : Nat) (a : Option Hash) :
    Except CallError (LeafProof Hash) × List (Hash × Nat) :=
  let block_hash := a.getD c.best_hash
  let result : Except CallError (LeafProof Hash) :=
    match c.query block_hash leaf_index with
    | .error e => .error (runtime_error_into_rpc_error e)
    | .ok (.error me) => .error (mmr_error_into_rpc_error me)
    | .ok (.ok (leaf, proof)) =>
        .ok (LeafProof.new encLeaf encHash block_hash leaf proof)
  (result, [(block_hash, leaf_index)])

/-- The handler `generate_proof` itself: the result component of the traced
body. -/
def generate_proof {Hash Leaf MmrHash : Type}
    (encLeaf : Leaf → List Nat) (encHash : MmrHash → List Nat)
    (c : Client Hash Leaf MmrHash) (leaf_index : Nat) (a : Option Hash) :
    Except CallError (LeafProof Hash) :=
  (generate_proof_traced encLeaf encHash c leaf_index a).1

/-- The queries a call to `generate_proof` issues to the collaborator. -/
def generate_proof_queries {Hash Leaf MmrHash : Type}
    (encLeaf : Leaf → List Nat) (encHash : MmrHash → List Nat)
    (c : Client Hash Leaf MmrHash) (leaf_index : Nat) (a : Option Hash) :
    List (Hash × Nat) :=
  (generate_proof_traced encLeaf encHash c leaf_index a).2

/-! ## JSON interchange format

The serde derive (`rename_all = "camelCase"`) together with the hex
serialization of `sp_core::Bytes` and `H256` live outside this repository
slice; the spec (§6, §4.3) pins the format: lower-camel-case field names,
each byte field as 0x-prefixed lowercase hex, and deserialization the exact
inverse of serialization.  The in-source tests pin one concrete value of the
format. -/

/-- Hash type of the in-source tests: `H256`, 32 raw bytes. -/
abbrev H256 := List Nat

/-- Builds the `H256` whose 32 bytes all equal `b` (`H256::repeat_byte`). -/
def repeatByte (b : Nat) : H256 := List.replicate 32 b

/-- Lowercase hex digit for a value below 16. -/
def hexDigitChar (n : Nat) : Char :=
  if n < 10 then Char.ofNat (48 + n) else Char.ofNat (87 + n)

/-- Two lowercase hex digits of one byte. -/
def byteToHex (b : Nat) : List Char :=
  [hexDigitChar (b / 16), hexDigitChar (b % 16)]

/-- Lowercase hex rendering of a byte list. -/
def bytesToHex (bs : List Nat) : List Char :=
  (bs.map byteToHex).flatten

/-- Opening chunk of the payload JSON, up to the first hex body. -/
def jsonOpen : List Char := ("\x7b\"blockHash\":\"0x").data

/-- Chunk between the block-hash hex body and the leaf hex body. -/
def jsonMid1 : List Char := ("\",\"leaf\":\"0x").data

/-- Chunk between the leaf hex body and the proof hex body. -/
def jsonMid2 : List Char := ("\",\"proof\":\"0x").data

/-- Closing chunk of the payload JSON. -/
def jsonClose : List Char := ("\"\x7d").data

/-- Modelled from the spec: serialization of a `LeafProof` over `H256`
(serde derive with camelCase renaming plus the 0x-hex encodings of
`sp_core::Bytes` and `H256`, neither under `src/`), per §6's response shape
and §4.3's 0x-prefixed lowercase hex rule. -/
def serializeLeafProof (lp : LeafProof H256) : String :=
  String.mk (jsonOpen ++ bytesToHex lp.block_hash ++
    jsonMid1 ++ bytesToHex lp.leaf.bytes ++
    jsonMid2 ++ bytesToHex lp.proof.bytes ++ jsonClose)

/-- The double-quote character, terminator of every hex body. -/
def quoteChar : Char := Char.ofNat 34

/-- Value of one lowercase hex digit, `none` on any other character. -/
def hexVal (c : Char) : Option Nat :=
  if 48 ≤ c.toNat ∧ c.toNat ≤ 57 then some (c.toNat - 48)
  else if 97 ≤ c.toNat ∧ c.toNat ≤ 102 then some (c.toNat - 87)
  else none

/-- Reads a hex body: byte pairs up to (and consuming) the closing quote,
returning the decoded bytes and the remaining input. -/
def parseHexBytes : List Char → Option (List Nat × List Char)
  | [] => none
  | [c] => if c = quoteChar then some ([], []) else none
  | c :: c2 :: rest =>
    if c = quoteChar then some ([], c2 :: rest)
    else
      match hexVal c, hexVal c2 with
      | some hi, some lo =>
        match parseHexBytes rest with
        | some (bs, r) => some ((hi * 16 + lo) :: bs, r)
        | none => none
      | _, _ => none

/-- Consumes an expected literal chunk from the input. -/
def dropLit : List Char → List Char → Option (List Char)
  | [], rest => some rest
  | _ :: _, [] => none
  | c :: cs, d :: ds => if c = d then dropLit cs ds else none

/-- Chunk expected after a consumed block-hash body, before the leaf body. -/
def jsonMid1Tail : List Char := (",\"leaf\":\"0x").data

/-- Chunk expected after a consumed leaf body, before the proof body. -/
def jsonMid2Tail : List Char := (",\"proof\":\"0x").data

/-- Chunk expected after a consumed proof body: the closing brace. -/
def jsonCloseTail : List Char := ("\x7d").data

/-- Modelled from the spec: deserialization of the payload JSON, the exact
inverse of `serializeLeafProof` (§6: "Deserialization must be the exact
inverse of serialization"); the serde `Deserialize` derive is outside this
repository slice. -/
def deserializeLeafProof (s : String) : Option (LeafProof H256) :=
  match dropLit jsonOpen s.data with
  | none => none
  | some r1 =>
    match parseHexBytes r1 with
    | none => none
    | some (bh, r2) =>
      match dropLit jsonMid1Tail r2 with
      | none => none
      | some r3 =>
        match parseHexBytes r3 with
        | none => none
        | some (leafB, r4) =>
          match dropLit jsonMid2Tail r4 with
          | none => none
          | some r5 =>
            match parseHexBytes r5 with
            | none => none
            | some (proofB, r6) =>
              if r6 = jsonCloseTail then
                some { block_hash := bh, leaf := ⟨leafB⟩, proof := ⟨proofB⟩ }
              else none

/-- Well-formedness of a byte list: every entry is one byte. -/
def bytesWF (l : List Nat) : Prop := ∀ b ∈ l, b < 256

instance (l : List Nat) : Decidable (bytesWF l) := by
  unfold bytesWF
  infer_instance

/-- Well-formedness of a `LeafProof` over `H256`: all three fields hold
genuine bytes. -/
def LeafProof.wf (lp : LeafProof H256) : Prop :=
  bytesWF lp.block_hash ∧ bytesWF lp.leaf.bytes ∧ bytesWF lp.proof.bytes

instance (lp : LeafProof H256) : Decidable lp.wf := by
  unfold LeafProof.wf
  infer_instance

/-! ## Test fixtures (the values pinned by the in-source serde tests) -/

/-- The proof value of the in-source tests: `leaf_index` 1, `leaf_count` 9,
items the all-0x01 and all-0x02 hashes. -/
def testProof : Proof H256 :=
  { leaf_index := 1, leaf_count := 9, items := [repeatByte 1, repeatByte 2] }

/-- The `LeafProof` of the in-source tests: leaf bytes `[1,2,3,4]` (a
`Vec<u8>`, hence `encodeVecU8`), `testProof`, and the all-zero block hash.
An `H256` item SCALE-encodes as its own 32 raw bytes, hence the identity
hash encoder. -/
def testLeafProof : LeafProof H256 :=
  LeafProof.new encodeVecU8 (fun h : H256 => h) (repeatByte 0) [1, 2, 3, 4] testProof

/-- The exact JSON the in-source test `should_serialize_leaf_proof` expects. -/
def expectedJson : String :=
  "\x7b\"blockHash\":\"0x0000000000000000000000000000000000000000000000000000000000000000\",\"leaf\":\"0x1001020304\",\"proof\":\"0x010000000000000009000000000000000801010101010101010101010101010101010101010101010101010101010101010202020202020202020202020202020202020202020202020202020202020202\"\x7d"

/-! ## Helper lemmas -/

/-- Unfolding lemma for the data of a literally constructed string. -/
theorem strDataMk (l : List Char) : (String.mk l).data = l := rfl

/-- Dropping a literal from input that starts with it succeeds and leaves
the rest. -/
theorem dropLit_append (l r : List Char) : dropLit l (l ++ r) = some r := by
  induction l with
  | nil => rfl
  | cons c cs ih => simp [dropLit, ih]

/-- Hex digits round-trip below 16. -/
theorem hexVal_hexDigitChar : ∀ n < 16, hexVal (hexDigitChar n) = some n := by
  decide

/-- Hex digits are never the quote terminator. -/
theorem hexDigitChar_ne_quote : ∀ n < 16, hexDigitChar n ≠ quoteChar := by
  decide

/-- Reading a rendered hex body terminated by a quote recovers the bytes. -/
theorem parseHexBytes_hex (bs : List Nat) (rest : List Char) (h : bytesWF bs) :
    parseHexBytes (bytesToHex bs ++ quoteChar :: rest) = some (bs, rest) := by
  induction bs with
  | nil =>
    cases rest with
    | nil => simp [bytesToHex, parseHexBytes]
    | cons c cs => simp [bytesToHex, parseHexBytes]
  | cons b bs ih =>
    have hb : b < 256 := h b (List.mem_cons_self _ _)
    have hbs : bytesWF bs := fun x hx => h x (List.mem_cons_of_mem _ hx)
    have hhi : b / 16 < 16 := by omega
    have hlo : b % 16 < 16 := by omega
    have hrec := ih hbs
    simp only [bytesToHex, List.map_cons, List.flatten_cons, byteToHex,
      List.cons_append, List.nil_append] at hrec ⊢
    simp only [parseHexBytes, if_neg (hexDigitChar_ne_quote _ hhi),
      hexVal_hexDigitChar _ hhi, hexVal_hexDigitChar _ hlo, hrec]
    have hbeq : b / 16 * 16 + b % 16 = b := by omega
    rw [hbeq]

/-- Deserialization inverts serialization on well-formed payloads. -/
theorem deserialize_serialize (lp : LeafProof H256) (h : lp.wf) :
    deserializeLeafProof (serializeLeafProof lp) = some lp := by
  obtain ⟨hbh, hleaf, hproof⟩ := h
  have e1 : jsonMid1 = quoteChar :: jsonMid1Tail := by decide
  have e2 : jsonMid2 = quoteChar :: jsonMid2Tail := by decide
  have e3 : jsonClose = quoteChar :: jsonCloseTail := by decide
  unfold serializeLeafProof deserializeLeafProof
  rw [strDataMk, e1, e2, e3]
  simp only [List.append_assoc, List.cons_append]
  simp only [dropLit_append, parseHexBytes_hex _ _ hbh,
    parseHexBytes_hex _ _ hleaf, parseHexBytes_hex _ _ hproof]
  rfl

/-- Little-endian u64 decoding inverts encoding below `2 ^ 64`. -/
theorem u64dec_u64le (n : Nat) (h : n < 2 ^ 64) : u64dec (u64le n) = n := by
  simp only [u64le, u64dec, List.foldr]
  omega

/-- The u64 encoding always occupies exactly 8 bytes. -/
theorem u64le_length (n : Nat) : (u64le n).length = 8 := by
  simp [u64le]

/-- Unfolding equation of the handler: resolve the reference, issue the one
query, map each failure layer, package on success. -/
theorem generate_proof_eq {Hash Leaf MmrHash : Type}
    (encLeaf : Leaf → List Nat) (encHash : MmrHash → List Nat)
    (c : Client Hash Leaf MmrHash) (li : Nat) (a : Option Hash) :
    generate_proof encLeaf encHash c li a =
      (match c.query (a.getD c.best_hash) li with
       | .error e => .error (runtime_error_into_rpc_error e)
       | .ok (.error me) => .error (mmr_error_into_rpc_error me)
       | .ok (.ok (leaf, proof)) =>
          .ok (LeafProof.new encLeaf encHash (a.getD c.best_hash) leaf proof)) :=
  rfl

/-- Unfolding equation of the handler's query trace. -/
theorem generate_proof_queries_eq {Hash Leaf MmrHash : Type}
    (encLeaf : Leaf → List Nat) (encHash : MmrHash → List Nat)
    (c : Client Hash Leaf MmrHash) (li : Nat) (a : Option Hash) :
    generate_proof_queries encLeaf encHash c li a = [(a.getD c.best_hash, li)] :=
  rfl

/-! ## Stub collaborators used by the witnesses -/

/-- Stub collaborator whose query always succeeds, echoing the requested
leaf index into the returned proof. -/
def stubClientOk : Client Nat (List Nat) H256 :=
  { best_hash := 7
    query := fun _ li =>
      .ok (.ok ([1, 2, 3, 4], { leaf_index := li, leaf_count := 9, items := [] })) }

/-- Stub collaborator whose query always fails at the dispatch layer. -/
def stubClientErr : Client Nat (List Nat) H256 :=
  { best_hash := 7
    query := fun _ _ => .error ("ApiError") }

/-- Stub collaborator whose query always reports a missing leaf. -/
def stubClientLeafErr : Client Nat (List Nat) H256 :=
  { best_hash := 7
    query := fun _ _ => .ok (.error .LeafNotFound) }

/-! ## Claim theorems -/

/-- C1: the error mapping is exactly the four-tier taxonomy: dispatch
failures map to code 8000 / "Runtime trapped"; `LeafNotFound` to 8011
(base + 11) / "Leaf was not found"; `GenerateProof` to 8012 (base + 12) /
"Error while generating the proof"; every other accumulator error to 8010
(base + 10) / "Unexpected MMR error"; and every error carries the
debug-formatted cause as its detail string, for every collaborator failure. -/
theorem C1_error_taxonomy :
    RUNTIME_ERROR = 8000 ∧ MMR_ERROR = 8010 ∧
    LEAF_NOT_FOUND_ERROR = RUNTIME_ERROR + 11 ∧
    GENERATE_PROOF_ERROR = RUNTIME_ERROR + 12 ∧
    (∀ d : String, runtime_error_into_rpc_error d =
      .Custom ⟨8000, "Runtime trapped", some d⟩) ∧
    (∀ e : MmrError, mmr_error_into_rpc_error e =
      match e with
      | .LeafNotFound =>
          .Custom ⟨8011, "Leaf was not found", some (MmrError.LeafNotFound.debugFmt)⟩
      | .GenerateProof =>
          .Custom ⟨8012, "Error while generating the proof",
            some (MmrError.GenerateProof.debugFmt)⟩
      | .Other d =>
          .Custom ⟨8010, "Unexpected MMR error", some ((MmrError.Other d).debugFmt)⟩) ∧
    (∀ e : MmrError, (mmr_error_into_rpc_error e).data = some (e.debugFmt)) := by
  refine ⟨rfl, rfl, rfl, rfl, fun d => rfl, fun e => ?_, fun e => ?_⟩ <;>
    cases e <;> rfl

/-- C5: every collaborator failure lands in exactly one tier; dispatch code
8000 sits strictly below the accumulator range 8010–8012, so the ranges are
disjoint, and `LeafNotFound` (8011) and `GenerateProof` (8012) get distinct
codes; the variant-to-code classification is total and single-valued. -/
theorem C5_code_disjointness :
    (∀ d : String, (runtime_error_into_rpc_error d).code = 8000) ∧
    (∀ e : MmrError, 8010 ≤ (mmr_error_into_rpc_error e).code ∧
      (mmr_error_into_rpc_error e).code ≤ 8012) ∧
    (∀ (d : String) (e : MmrError),
      (runtime_error_into_rpc_error d).code < (mmr_error_into_rpc_error e).code) ∧
    (∀ e : MmrError, (mmr_error_into_rpc_error e).code =
      match e with
      | .LeafNotFound => 8011
      | .GenerateProof => 8012
      | .Other _ => 8010) ∧
    (mmr_error_into_rpc_error .LeafNotFound).code = 8011 ∧
    (mmr_error_into_rpc_error .GenerateProof).code = 8012 := by
  refine ⟨fun d => rfl, fun e => ?_, fun d e => ?_, fun e => ?_, rfl, rfl⟩ <;>
    cases e <;> simp [mmr_error_into_rpc_error, CallError.code,
      runtime_error_into_rpc_error, MMR_ERROR, LEAF_NOT_FOUND_ERROR,
      GENERATE_PROOF_ERROR, RUNTIME_ERROR]

/-- C6: the codec operation is a total function with no error branch: for
every block hash, encodable leaf and proof it returns the `LeafProof` whose
fields are the block hash and the two canonical encodings. -/
theorem C6_codec_total {BlockHash Leaf MmrHash : Type}
    (encLeaf : Leaf → List Nat) (encHash : MmrHash → List Nat)
    (bh : BlockHash) (leaf : Leaf) (proof : Proof MmrHash) :
    LeafProof.new encLeaf encHash bh leaf proof =
      { block_hash := bh, leaf := ⟨encLeaf leaf⟩,
        proof := ⟨proofEncode encHash proof⟩ } :=
  rfl

/-- C7: encoding is deterministic: two invocations of the codec on equal
inputs yield equal results, in particular byte-identical encoded leaf bytes
and byte-identical encoded proof bytes. -/
theorem C7_determinism {BlockHash Leaf MmrHash : Type}
    (encLeaf : Leaf → List Nat) (encHash : MmrHash → List Nat)
    (b1 b2 : BlockHash) (l1 l2 : Leaf) (p1 p2 : Proof MmrHash)
    (hb : b1 = b2) (hl : l1 = l2) (hp : p1 = p2) :
    LeafProof.new encLeaf encHash b1 l1 p1 = LeafProof.new encLeaf encHash b2 l2 p2 ∧
    (LeafProof.new encLeaf encHash b1 l1 p1).leaf.bytes =
      (LeafProof.new encLeaf encHash b2 l2 p2).leaf.bytes ∧
    (LeafProof.new encLeaf encHash b1 l1 p1).proof.bytes =
      (LeafProof.new encLeaf encHash b2 l2 p2).proof.bytes := by
  subst hb
  subst hl
  subst hp
  exact ⟨rfl, rfl, rfl⟩

/-- Witness for C7 at the in-source test inputs. -/
theorem C7_determinism_witness :
    LeafProof.new encodeVecU8 (fun h : H256 => h) (repeatByte 0) [1, 2, 3, 4] testProof =
      LeafProof.new encodeVecU8 (fun h : H256 => h) (repeatByte 0) [1, 2, 3, 4] testProof ∧
    (LeafProof.new encodeVecU8 (fun h : H256 => h) (repeatByte 0) [1, 2, 3, 4] testProof).leaf.bytes =
      (LeafProof.new encodeVecU8 (fun h : H256 => h) (repeatByte 0) [1, 2, 3, 4] testProof).leaf.bytes ∧
    (LeafProof.new encodeVecU8 (fun h : H256 => h) (repeatByte 0) [1, 2, 3, 4] testProof).proof.bytes =
      (LeafProof.new encodeVecU8 (fun h : H256 => h) (repeatByte 0) [1, 2, 3, 4] testProof).proof.bytes :=
  C7_determinism encodeVecU8 (fun h : H256 => h) (repeatByte 0) (repeatByte 0)
    [1, 2, 3, 4] [1, 2, 3, 4] testProof testProof rfl rfl rfl

/-- C9: each call issues exactly one query to the collaborator — the trace
is the single resolved `(block_hash, leaf_index)` pair — whether the call
succeeds or fails, so no retry is ever issued. -/
theorem C9_single_query {Hash Leaf MmrHash : Type}
    (encLeaf : Leaf → List Nat) (encHash : MmrHash → List Nat)
    (c : Client Hash Leaf MmrHash) (li : Nat) (a : Option Hash) :
    generate_proof_queries encLeaf encHash c li a = [(a.getD c.best_hash, li)] ∧
    (generate_proof_queries encLeaf encHash c li a).length = 1 :=
  ⟨rfl, rfl⟩

/-- C3: with `at` omitted the handler resolves the snapshot to the
collaborator's current best hash and uses it both for the query and as the
`block_hash` of a successful response; with `at = some h` the value `h` is
used and the best hash is never consulted (the outcome is invariant under
changing it). -/
theorem C3_default_resolution {Hash Leaf MmrHash : Type}
    (encLeaf : Leaf → List Nat) (encHash : MmrHash → List Nat)
    (c : Client Hash Leaf MmrHash) (li : Nat) :
    generate_proof_queries encLeaf encHash c li none = [(c.best_hash, li)] ∧
    (∀ leaf proof, c.query c.best_hash li = .ok (.ok (leaf, proof)) →
      generate_proof encLeaf encHash c li none =
        .ok (LeafProof.new encLeaf encHash c.best_hash leaf proof)) ∧
    (∀ lp, generate_proof encLeaf encHash c li none = .ok lp →
      lp.block_hash = c.best_hash) ∧
    (∀ h : Hash, generate_proof_queries encLeaf encHash c li (some h) = [(h, li)] ∧
      ∀ b2 : Hash, generate_proof_traced encLeaf encHash ⟨b2, c.query⟩ li (some h) =
        generate_proof_traced encLeaf encHash c li (some h)) := by
  refine ⟨rfl, ?_, ?_, fun h => ⟨rfl, fun b2 => rfl⟩⟩
  · intro leaf proof hq
    rw [generate_proof_eq]
    simp only [Option.getD_none, hq]
  · intro lp hlp
    rw [generate_proof_eq] at hlp
    simp only [Option.getD_none] at hlp
    cases hq : c.query c.best_hash li with
    | error e => rw [hq] at hlp; simp at hlp
    | ok inner =>
      cases inner with
      | error me => rw [hq] at hlp; simp at hlp
      | ok pair =>
        cases pair with
        | mk leaf proof =>
          rw [hq] at hlp
          simp only [Except.ok.injEq] at hlp
          rw [← hlp]
          rfl

/-- Witness for C3 on a stub collaborator with best hash 7. -/
theorem C3_default_resolution_witness :
    generate_proof encodeVecU8 (fun h : H256 => h) stubClientOk 5 none =
      .ok (LeafProof.new encodeVecU8 (fun h : H256 => h) 7 [1, 2, 3, 4]
        { leaf_index := 5, leaf_count := 9, items := [] }) ∧
    generate_proof_queries encodeVecU8 (fun h : H256 => h) stubClientOk 5 none = [(7, 5)] :=
  ⟨(C3_default_resolution encodeVecU8 (fun h : H256 => h) stubClientOk 5).2.1
      [1, 2, 3, 4] { leaf_index := 5, leaf_count := 9, items := [] } rfl,
   (C3_default_resolution encodeVecU8 (fun h : H256 => h) stubClientOk 5).1⟩

/-- C4: a successful query yields `Ok` with the resolved block hash and the
canonical SCALE encodings of leaf and proof (field and item order preserved
by `proofEncode`); every failing query yields `Err` with one of the
taxonomy's errors — no partial payload ever reaches the caller. -/
theorem C4_success_packaging {Hash Leaf MmrHash : Type}
    (encLeaf : Leaf → List Nat) (encHash : MmrHash → List Nat)
    (c : Client Hash Leaf MmrHash) (li : Nat) (a : Option Hash) :
    (∀ leaf proof, c.query (a.getD c.best_hash) li = .ok (.ok (leaf, proof)) →
      generate_proof encLeaf encHash c li a =
        .ok { block_hash := a.getD c.best_hash, leaf := ⟨encLeaf leaf⟩,
              proof := ⟨proofEncode encHash proof⟩ }) ∧
    (∀ e, c.query (a.getD c.best_hash) li = .error e →
      generate_proof encLeaf encHash c li a = .error (runtime_error_into_rpc_error e)) ∧
    (∀ me, c.query (a.getD c.best_hash) li = .ok (.error me) →
      generate_proof encLeaf encHash c li a = .error (mmr_error_into_rpc_error me)) ∧
    (∀ ce, generate_proof encLeaf encHash c li a = .error ce →
      ce.code = 8000 ∨ ce.code = 8010 ∨ ce.code = 8011 ∨ ce.code = 8012) := by
  refine ⟨?_, ?_, ?_, ?_⟩
  · intro leaf proof hq
    rw [generate_proof_eq, hq]
    rfl
  · intro e hq
    rw [generate_proof_eq, hq]
  · intro me hq
    rw [generate_proof_eq, hq]
  · intro ce hce
    rw [generate_proof_eq] at hce
    cases hq : c.query (a.getD c.best_hash) li with
    | error e =>
      rw [hq] at hce
      simp only [Except.error.injEq] at hce
      subst hce
      exact Or.inl rfl
    | ok inner =>
      cases inner with
      | error me =>
        rw [hq] at hce
        simp only [Except.error.injEq] at hce
        subst hce
        cases me with
        | LeafNotFound => exact Or.inr (Or.inr (Or.inl rfl))
        | GenerateProof => exact Or.inr (Or.inr (Or.inr rfl))
        | Other d => exact Or.inr (Or.inl rfl)
      | ok pair =>
        cases pair with
        | mk leaf proof => rw [hq] at hce; simp at hce

/-- Witness for C4: one success, one accumulator failure, one dispatch
failure, each on its stub collaborator. -/
theorem C4_success_packaging_witness :
    generate_proof encodeVecU8 (fun h : H256 => h) stubClientOk 3 none =
      .ok { block_hash := 7, leaf := ⟨encodeVecU8 [1, 2, 3, 4]⟩,
            proof := ⟨proofEncode (fun h : H256 => h)
              { leaf_index := 3, leaf_count := 9, items := [] }⟩ } ∧
    generate_proof encodeVecU8 (fun h : H256 => h) stubClientLeafErr 3 none =
      .error (mmr_error_into_rpc_error .LeafNotFound) ∧
    generate_proof encodeVecU8 (fun h : H256 => h) stubClientErr 3 none =
      .error (runtime_error_into_rpc_error ("ApiError")) :=
  ⟨(C4_success_packaging encodeVecU8 (fun h : H256 => h) stubClientOk 3 none).1
      [1, 2, 3, 4] { leaf_index := 3, leaf_count := 9, items := [] } rfl,
   (C4_success_packaging encodeVecU8 (fun h : H256 => h) stubClientLeafErr 3 none).2.2.1
      .LeafNotFound rfl,
   (C4_success_packaging encodeVecU8 (fun h : H256 => h) stubClientErr 3 none).2.1
      ("ApiError") rfl⟩

/-- C8: when the collaborator query succeeds with a proof for the requested
index (the collaborator contract of the spec), the first 8 bytes of the
returned encoded proof are exactly the little-endian u64 of the requested
leaf index, and decoding them recovers that index, for every u64 index. -/
theorem C8_leaf_index_fidelity {Hash Leaf MmrHash : Type}
    (encLeaf : Leaf → List Nat) (encHash : MmrHash → List Nat)
    (c : Client Hash Leaf MmrHash) (li : Nat) (a : Option Hash)
    (leaf : Leaf) (proof : Proof MmrHash) (lp : LeafProof Hash)
    (hli : li < 2 ^ 64)
    (hq : c.query (a.getD c.best_hash) li = .ok (.ok (leaf, proof)))
    (hconf : proof.leaf_index = li)
    (hres : generate_proof encLeaf encHash c li a = .ok lp) :
    lp.proof.bytes.take 8 = u64le li ∧
    u64dec (lp.proof.bytes.take 8) = li := by
  rw [generate_proof_eq, hq] at hres
  simp only [Except.ok.injEq] at hres
  subst hres
  have htake : (proofEncode encHash proof).take 8 = u64le proof.leaf_index := by
    unfold proofEncode
    rw [List.append_assoc, List.append_assoc]
    calc (u64le proof.leaf_index ++ _).take 8
        = (u64le proof.leaf_index ++ _).take (u64le proof.leaf_index).length := by
          rw [u64le_length]
      _ = u64le proof.leaf_index := List.take_left _ _
  have hbytes : (LeafProof.new encLeaf encHash (a.getD c.best_hash) leaf proof).proof.bytes
      = proofEncode encHash proof := rfl
  rw [hbytes, htake, hconf]
  exact ⟨rfl, u64dec_u64le li hli⟩

/-- Witness for C8 at index 0 and at the u64 maximum `2 ^ 64 - 1`. -/
theorem C8_leaf_index_fidelity_witness :
    ((LeafProof.new encodeVecU8 (fun h : H256 => h) 7 [1, 2, 3, 4]
        { leaf_index := 0, leaf_count := 9, items := [] }).proof.bytes.take 8 = u64le 0 ∧
      u64dec ((LeafProof.new encodeVecU8 (fun h : H256 => h) 7 [1, 2, 3, 4]
        { leaf_index := 0, leaf_count := 9, items := [] }).proof.bytes.take 8) = 0) ∧
    ((LeafProof.new encodeVecU8 (fun h : H256 => h) 7 [1, 2, 3, 4]
        { leaf_index := 2 ^ 64 - 1, leaf_count := 9, items := [] }).proof.bytes.take 8 =
          u64le (2 ^ 64 - 1) ∧
      u64dec ((LeafProof.new encodeVecU8 (fun h : H256 => h) 7 [1, 2, 3, 4]
        { leaf_index := 2 ^ 64 - 1, leaf_count := 9, items := [] }).proof.bytes.take 8) =
          2 ^ 64 - 1) :=
  ⟨C8_leaf_index_fidelity encodeVecU8 (fun h : H256 => h) stubClientOk 0 none
      [1, 2, 3, 4] { leaf_index := 0, leaf_count := 9, items := [] }
      (LeafProof.new encodeVecU8 (fun h : H256 => h) 7 [1, 2, 3, 4]
        { leaf_index := 0, leaf_count := 9, items := [] })
      (by norm_num) rfl rfl rfl,
   C8_leaf_index_fidelity encodeVecU8 (fun h : H256 => h) stubClientOk (2 ^ 64 - 1) none
      [1, 2, 3, 4] { leaf_index := 2 ^ 64 - 1, leaf_count := 9, items := [] }
      (LeafProof.new encodeVecU8 (fun h : H256 => h) 7 [1, 2, 3, 4]
        { leaf_index := 2 ^ 64 - 1, leaf_count := 9, items := [] })
      (by norm_num) rfl rfl rfl⟩

/-- C10: a supplied hash `h` is forwarded verbatim to the single query
(no validation branch exists), the outcome never depends on the best hash,
a successful response returns `h` unchanged as `block_hash`, and every
failure is one of the two taxonomy mappings of a collaborator-reported
failure — never a distinct validation error. -/
theorem C10_verbatim_forwarding {Hash Leaf MmrHash : Type}
    (encLeaf : Leaf → List Nat) (encHash : MmrHash → List Nat)
    (c : Client Hash Leaf MmrHash) (li : Nat) (hh : Hash) :
    generate_proof_queries encLeaf encHash c li (some hh) = [(hh, li)] ∧
    (∀ b2 : Hash, generate_proof_traced encLeaf encHash ⟨b2, c.query⟩ li (some hh) =
      generate_proof_traced encLeaf encHash c li (some hh)) ∧
    (∀ leaf proof, c.query hh li = .ok (.ok (leaf, proof)) →
      ∃ lp, generate_proof encLeaf encHash c li (some hh) = .ok lp ∧
        lp.block_hash = hh) ∧
    (∀ ce, generate_proof encLeaf encHash c li (some hh) = .error ce →
      (∃ e, c.query hh li = .error e ∧ ce = runtime_error_into_rpc_error e) ∨
      (∃ me, c.query hh li = .ok (.error me) ∧ ce = mmr_error_into_rpc_error me)) := by
  refine ⟨rfl, fun b2 => rfl, ?_, ?_⟩
  · intro leaf proof hq
    refine ⟨LeafProof.new encLeaf encHash hh leaf proof, ?_, rfl⟩
    rw [generate_proof_eq]
    simp only [Option.getD_some, hq]
  · intro ce hce
    rw [generate_proof_eq] at hce
    simp only [Option.getD_some] at hce
    cases hq : c.query hh li with
    | error e =>
      rw [hq] at hce
      simp only [Except.error.injEq] at hce
      exact Or.inl ⟨e, rfl, hce.symm⟩
    | ok inner =>
      cases inner with
      | error me =>
        rw [hq] at hce
        simp only [Except.error.injEq] at hce
        exact Or.inr ⟨me, rfl, hce.symm⟩
      | ok pair =>
        cases pair with
        | mk leaf proof => rw [hq] at hce; simp at hce

/-- Witness for C10 at the arbitrary supplied hash 42. -/
theorem C10_verbatim_forwarding_witness :
    (∃ lp, generate_proof encodeVecU8 (fun h : H256 => h) stubClientOk 5 (some 42) =
      .ok lp ∧ lp.block_hash = 42) ∧
    generate_proof_queries encodeVecU8 (fun h : H256 => h) stubClientOk 5 (some 42) =
      [(42, 5)] :=
  ⟨(C10_verbatim_forwarding encodeVecU8 (fun h : H256 => h) stubClientOk 5 42).2.2.1
      [1, 2, 3, 4] { leaf_index := 5, leaf_count := 9, items := [] } rfl,
   (C10_verbatim_forwarding encodeVecU8 (fun h : H256 => h) stubClientOk 5 42).1⟩

set_option maxRecDepth 100000 in
/-- C2: deserialization inverts serialization on every well-formed
`LeafProof`; the in-source test value serializes to exactly the expected
JSON (0x-prefixed lowercase hex, lower-camel-case field names) and
deserializing that JSON reproduces the original structure. -/
theorem C2_round_trip :
    (∀ lp : LeafProof H256, lp.wf →
      deserializeLeafProof (serializeLeafProof lp) = some lp) ∧
    serializeLeafProof testLeafProof = expectedJson ∧
    deserializeLeafProof expectedJson = some testLeafProof := by
  refine ⟨deserialize_serialize, ?_, ?_⟩ <;> decide

set_option maxRecDepth 100000 in
/-- Witness for C2 at the in-source test value. -/
theorem C2_round_trip_witness :
    deserializeLeafProof (serializeLeafProof testLeafProof) = some testLeafProof :=
  C2_round_trip.1 testLeafProof (by decide)

